import Mathlib

/-!
Verification of the Redis-backed token-bucket rate limiter
(class TokenBucket in src/test.py, used by src/main.py).

Modeling conventions:
- Python floats (timestamps, token counts, rates) are modeled as exact
  rationals.  Python int() truncation toward zero is `pyInt`.
  Python round(x, 2) is `round2` (round to the nearest hundredth; the
  tie-breaking of binary floats differs from `round` only at exact
  half-hundredths, which no claim reaches).
- The Redis hash at key "bucket:<ip>" holds string fields "tokens" and
  "last".  A read of a field yields either no value (the field or the
  whole key is absent, Python None), an empty string, a string that
  parses as a float, or a string that does not parse (float(...) raises
  ValueError).  This is `FieldVal`.  The truthiness test
  `float(data[i]) if data[i] else default` maps absent and empty to the
  default and raises on a malformed value (`parseOr`); the pattern
  `if data[0] is None ... float(data[0])` of get_stats maps only absent
  to the new-bucket branch and raises on empty or malformed
  (`parseStrict`).
- Store availability is one per-call flag `reachable`: when false every
  Redis command of the call raises (redis.ConnectionError), which the
  enclosing try/except of each method observes.
- In allow_request, `(1 - tokens) / self.refill_rate` raises
  ZeroDivisionError when refill_rate = 0; the catch-all
  `except Exception: return True` turns this into fail-open Allowed,
  so the embedding has an explicit refill_rate = 0 branch there.
- Raising RateLimitExceeded is the `Decision.denied` outcome with its
  retry_after value; returning True is `Decision.allowed`.  Store
  errors in get_stats and check_redis_connection propagate, modeled as
  `Except.error`.
-/

namespace RateLimiter

/-- A value read back for one hash field of a bucket record. -/
inductive FieldVal where
  | absent : FieldVal
  | empty : FieldVal
  | num : ℚ → FieldVal
  | malformed : FieldVal
deriving DecidableEq

/-- The stored hash at one key: fields "tokens" and "last", plus the
    expiry deadline set by `r.expire` (none when no TTL is set). -/
structure StoredRecord where
  tokens : FieldVal
  last : FieldVal
  expiresAt : Option ℚ
deriving DecidableEq

/-- A key with no record reads back as both fields absent, no TTL. -/
def freshRecord : StoredRecord := ⟨.absent, .absent, none⟩

/-- The shared Redis store: an availability flag for the current call
    and the record read back at each key. -/
structure Store where
  reachable : Bool
  data : String → StoredRecord

/-- A reachable store holding no record at any key. -/
def freshStore : Store := ⟨true, fun _ => freshRecord⟩

/-- A reachable store holding exactly one record, at the bucket key of
    the given identity. -/
def storeWith (record : StoredRecord) (ip : String) : Store :=
  ⟨true, fun k => if k = "bucket:" ++ ip then record else freshRecord⟩

/-- An unreachable store (every Redis command raises ConnectionError). -/
def downStore : Store := ⟨false, fun _ => freshRecord⟩

/-- TokenBucket.__init__(self, capacity=10, refill_rate=1). -/
structure TokenBucket where
  capacity : ℚ
  refill_rate : ℚ
deriving DecidableEq

/-- Outcome of allow_request: return True, or raise RateLimitExceeded
    carrying retry_after. -/
inductive Decision where
  | allowed : Decision
  | denied : ℤ → Decision
deriving DecidableEq

/-- The key f"bucket:{ip}". -/
def bucketKey (ip : String) : String := "bucket:" ++ ip

/-- Python int(): truncation toward zero. -/
def pyInt (q : ℚ) : ℤ := if 0 ≤ q then ⌊q⌋ else -⌊-q⌋

/-- Python round(x, 2): round to the nearest hundredth. -/
def round2 (q : ℚ) : ℚ := (round (q * 100) : ℚ) / 100

/-- Evaluation of `float(v) if v else default`: absent (None) and the
    empty string are falsy and give the default; a malformed value makes
    float(...) raise. -/
def parseOr (v : FieldVal) (default : ℚ) : Except Unit ℚ :=
  match v with
  | .absent => .ok default
  | .empty => .ok default
  | .num q => .ok q
  | .malformed => .error ()

/-- Evaluation of `float(v)` on a value already known not to be None:
    empty and malformed strings make float(...) raise. -/
def parseStrict (v : FieldVal) : Except Unit ℚ :=
  match v with
  | .num q => .ok q
  | _ => .error ()

/-- The refill arithmetic shared by allow_request and get_stats:
    delta = now - last  (NOT clamped below at 0 in the source),
    min(capacity, tokens + delta * refill_rate). -/
def refillAt (tb : TokenBucket) (tokens last now : ℚ) : ℚ :=
  min tb.capacity (tokens + (now - last) * tb.refill_rate)

/-- `r.hset(key, mapping={"tokens": tokens, "last": now})` followed by
    `r.expire(key, 60)`. -/
def writeRecord (s : Store) (key : String) (tokens now : ℚ) : Store :=
  { s with
    data := fun k =>
      if k = key then ⟨.num tokens, .num now, some (now + 60)⟩ else s.data k }

/-- Lines 69-76 of allow_request: read both fields with hmget, apply the
    truthy-or-default parse of each (tokens defaults to capacity, last
    defaults to now), and refill.  Errors are ValueError from float(). -/
def allowRefilled (tb : TokenBucket) (s : Store) (ip : String) (now : ℚ) :
    Except Unit ℚ :=
  match parseOr (s.data (bucketKey ip)).tokens tb.capacity,
        parseOr (s.data (bucketKey ip)).last now with
  | .ok tokens, .ok last => .ok (refillAt tb tokens last now)
  | _, _ => .error ()

/-- TokenBucket.allow_request (src/test.py lines 63-101).  Returns the
    decision together with the store as left by the call.  Unreachable
    store and parse failures hit the catch-all and fail open; a refilled
    count below 1 raises RateLimitExceeded with
    retry_after = int((1 - tokens) / refill_rate) + 1, except that a
    zero refill_rate makes that division raise ZeroDivisionError, which
    the catch-all also turns into fail-open; otherwise one token is
    consumed and the record written back with a 60 second expiry. -/
def allow_request (tb : TokenBucket) (s : Store) (ip : String) (now : ℚ) :
    Decision × Store :=
  if s.reachable = false then (.allowed, s)
  else
    match allowRefilled tb s ip now with
    | .error _ => (.allowed, s)
    | .ok tokens =>
      if tokens < 1 then
        if tb.refill_rate = 0 then (.allowed, s)
        else (.denied (pyInt ((1 - tokens) / tb.refill_rate) + 1), s)
      else
        (.allowed, writeRecord s (bucketKey ip) (tokens - 1) now)

/-- The snapshot returned by get_stats. -/
structure Stats where
  tokens_available : ℚ
  capacity : ℚ
  refill_rate : ℚ
  status : String
  last_request : Option ℚ
  time_since_last : Option ℚ
deriving DecidableEq

/-- TokenBucket.get_stats (src/test.py lines 28-61).  Performs only the
    hmget read, so the store component of the result is always the input
    store.  An absent tokens field (data[0] is None) yields the "new"
    snapshot at full capacity; otherwise both fields are parsed
    (tokens strictly, last with now as fallback), the same refill
    arithmetic as allow_request is applied, and the "active" snapshot is
    returned.  Any store or parse error propagates to the caller. -/
def get_stats (tb : TokenBucket) (s : Store) (ip : String) (now : ℚ) :
    Except Unit Stats × Store :=
  if s.reachable = false then (.error (), s)
  else
    let record := s.data (bucketKey ip)
    match record.tokens with
    | .absent =>
      (.ok ⟨tb.capacity, tb.capacity, tb.refill_rate, "new", none, none⟩, s)
    | t0 =>
      match parseStrict t0, parseOr record.last now with
      | .ok tokens, .ok last =>
        let delta := now - last
        let current := refillAt tb tokens last now
        (.ok ⟨round2 current, tb.capacity, tb.refill_rate, "active",
              some last, some (round2 delta)⟩, s)
      | _, _ => (.error (), s)

/-- TokenBucket.check_redis_connection (src/test.py lines 19-26):
    r.ping() succeeds iff the store is reachable; a connection failure
    is re-raised as an error to the caller. -/
def check_redis_connection (s : Store) : Except Unit Bool :=
  if s.reachable then .ok true else .error ()

/-- State of the store after n consecutive allow_request calls for the
    same identity, all at the same timestamp. -/
def allowN (tb : TokenBucket) (ip : String) (now : ℚ) : ℕ → Store → Store
  | 0, s => s
  | n + 1, s => (allow_request tb (allowN tb ip now n s) ip now).2

/-! ## Helper lemmas -/

/-- A parse failure in allow_request (a malformed tokens or last field)
    makes the shared read-and-refill step fail. -/
lemma allowRefilled_malformed (tb : TokenBucket) (s : Store) (ip : String)
    (now : ℚ)
    (h : (s.data (bucketKey ip)).tokens = .malformed ∨
         (s.data (bucketKey ip)).last = .malformed) :
    allowRefilled tb s ip now = .error () := by
  unfold allowRefilled
  rcases h with h | h
  · rw [h]
    rfl
  · rw [h]
    cases h2 : parseOr (s.data (bucketKey ip)).tokens tb.capacity <;> rfl

/-- Any value produced by the read-and-refill step is at most the
    configured capacity (the min with capacity saturates). -/
lemma allowRefilled_le_capacity (tb : TokenBucket) (s : Store) (ip : String)
    (now t : ℚ) (h : allowRefilled tb s ip now = .ok t) : t ≤ tb.capacity := by
  unfold allowRefilled at h
  rcases h1 : parseOr (s.data (bucketKey ip)).tokens tb.capacity with _ | q1 <;>
    rcases h2 : parseOr (s.data (bucketKey ip)).last now with _ | q2 <;>
      rw [h1, h2] at h <;> simp at h
  subst h
  simp only [refillAt]
  exact min_le_left _ _

/-- Exhaustive description of allow_request: it leaves the store intact
    and returns Allowed, or leaves the store intact and raises
    RateLimitExceeded, or (only when at least one token is available
    after refill) consumes a token and writes the record back. -/
lemma allow_request_cases (tb : TokenBucket) (s : Store) (ip : String)
    (now : ℚ) :
    allow_request tb s ip now = (.allowed, s) ∨
    (∃ t, allowRefilled tb s ip now = .ok t ∧ t < 1 ∧
      tb.refill_rate ≠ 0 ∧
      allow_request tb s ip now =
        (.denied (pyInt ((1 - t) / tb.refill_rate) + 1), s)) ∨
    (∃ t, allowRefilled tb s ip now = .ok t ∧ 1 ≤ t ∧
      allow_request tb s ip now =
        (.allowed, writeRecord s (bucketKey ip) (t - 1) now)) := by
  unfold allow_request
  split
  · exact Or.inl rfl
  · rcases h : allowRefilled tb s ip now with _ | t
    · exact Or.inl rfl
    · by_cases hlt : t < 1
      · by_cases hz : tb.refill_rate = 0
        · simp [hlt, hz]
        · simp only [hlt, hz, if_true, if_false]
          exact Or.inr (Or.inl ⟨t, rfl, hlt, hz, rfl⟩)
      · simp only [hlt, if_false]
        exact Or.inr (Or.inr ⟨t, rfl, not_lt.mp hlt, rfl⟩)

/-- allow_request on an identity with no stored record and at least one
    token of capacity: the refill leaves a full bucket, one token is
    consumed, and the record is written back. -/
lemma allow_fresh (tb : TokenBucket) (ip : String) (t : ℚ)
    (h : 1 ≤ tb.capacity) :
    allow_request tb freshStore ip t =
      (.allowed, writeRecord freshStore (bucketKey ip) (tb.capacity - 1) t) := by
  simp [allow_request, allowRefilled, freshStore, freshRecord, parseOr,
        refillAt, not_lt.mpr h]

/-- allow_request on a record written at the same timestamp as the call
    (elapsed time 0) holding q ≤ capacity tokens: no refill happens, so
    the call consumes a token when q ≥ 1 and otherwise denies (or fails
    open on the zero-rate division). -/
lemma allow_stored (tb : TokenBucket) (s : Store) (ip : String) (t q : ℚ)
    (e : Option ℚ) (hr : s.reachable = true)
    (hd : s.data (bucketKey ip) = ⟨.num q, .num t, e⟩)
    (hq : q ≤ tb.capacity) :
    allow_request tb s ip t =
      if q < 1 then
        if tb.refill_rate = 0 then (.allowed, s)
        else (.denied (pyInt ((1 - q) / tb.refill_rate) + 1), s)
      else (.allowed, writeRecord s (bucketKey ip) (q - 1) t) := by
  simp [allow_request, allowRefilled, hd, hr, parseOr, refillAt,
        min_eq_right hq]

/-- Rounding an integral rational to two decimals leaves it unchanged. -/
lemma round2_natCast (n : ℕ) : round2 ((n : ℚ)) = n := by
  unfold round2
  rw [show ((n : ℚ) * 100) = ((n * 100 : ℕ) : ℚ) by push_cast; ring,
      round_natCast]
  push_cast
  ring

/-! ## Claims -/

/-- C4: for every identity and store state, when the store is
    unreachable or a stored numeric field is unparseable, allow_request
    fails open and returns Allowed rather than Denied or an error. -/
theorem C4_theorem (tb : TokenBucket) (s : Store) (ip : String) (now : ℚ)
    (h : s.reachable = false ∨
         (s.data (bucketKey ip)).tokens = .malformed ∨
         (s.data (bucketKey ip)).last = .malformed) :
    (allow_request tb s ip now).1 = .allowed := by
  rcases h with h | h
  · simp [allow_request, h]
  · unfold allow_request
    split
    · rfl
    · rw [allowRefilled_malformed tb s ip now h]

/-- C4 witness: a bucket of capacity 10 on an unreachable store allows
    the request. -/
theorem C4_witness : (allow_request ⟨10, 1⟩ downStore "w4" 0).1 = .allowed :=
  C4_theorem ⟨10, 1⟩ downStore "w4" 0 (Or.inl rfl)

/-- C7: when the store is unreachable, get_stats and
    check_redis_connection surface the error to the caller (neither
    fabricates a success result), while allow_request fails open. -/
theorem C7_theorem (tb : TokenBucket) (s : Store) (ip : String) (now : ℚ)
    (h : s.reachable = false) :
    (get_stats tb s ip now).1 = .error () ∧
    check_redis_connection s = .error () ∧
    (allow_request tb s ip now).1 = .allowed := by
  refine ⟨?_, ?_, ?_⟩ <;> simp [get_stats, check_redis_connection,
    allow_request, h]

/-- C7 witness: on the unreachable store, stats and the connectivity
    check error out and allow_request returns Allowed. -/
theorem C7_witness :
    (get_stats ⟨10, 1⟩ downStore "w7" 0).1 = .error () ∧
    check_redis_connection downStore = .error () ∧
    (allow_request ⟨10, 1⟩ downStore "w7" 0).1 = .allowed :=
  C7_theorem ⟨10, 1⟩ downStore "w7" 0 rfl

/-- C9: get_stats on an identity with no stored record returns the
    "new" snapshot at full capacity and passes the store through
    unmodified (its only store operation is the hmget read). -/
theorem C9_theorem (tb : TokenBucket) (s : Store) (ip : String) (now : ℚ)
    (hr : s.reachable = true) (hd : s.data (bucketKey ip) = freshRecord) :
    get_stats tb s ip now =
      (.ok ⟨tb.capacity, tb.capacity, tb.refill_rate, "new", none, none⟩,
       s) := by
  simp [get_stats, hr, hd, freshRecord]

/-- C9 witness: stats of an unseen identity on the fresh store. -/
theorem C9_witness :
    get_stats ⟨10, 1⟩ freshStore "w9" 0 =
      (.ok ⟨10, 10, 1, "new", none, none⟩, freshStore) :=
  C9_theorem ⟨10, 1⟩ freshStore "w9" 0 rfl rfl

/-- C10: for every identity and store state, allow_request either
    returns Allowed or raises RateLimitExceeded; in the embedding every
    other exception path of the source (connection errors, parse
    errors, the zero-rate ZeroDivisionError) is absorbed by the
    catch-all and surfaces as Allowed, so no third outcome exists. -/
theorem C10_theorem (tb : TokenBucket) (s : Store) (ip : String) (now : ℚ) :
    (allow_request tb s ip now).1 = .allowed ∨
    ∃ r, (allow_request tb s ip now).1 = .denied r := by
  rcases allow_request_cases tb s ip now with h | ⟨t, _, _, _, h⟩ | ⟨t, _, _, h⟩
  · exact Or.inl (by rw [h])
  · exact Or.inr ⟨_, by rw [h]⟩
  · exact Or.inl (by rw [h])

/-- C5: allow_request mutates the stored record only on the Allowed
    path.  On a Denied outcome the store is returned untouched (a
    denied request does not reset the refill clock); on the
    unreachable-store and malformed-record paths it is also untouched;
    and whenever the store did change, the outcome was Allowed and the
    change is the write of the consumed token count, the new
    last-refill timestamp, and the refreshed 60-second expiry. -/
theorem C5_theorem (tb : TokenBucket) (s : Store) (ip : String) (now : ℚ) :
    (∀ r, (allow_request tb s ip now).1 = .denied r →
      (allow_request tb s ip now).2 = s) ∧
    (s.reachable = false → allow_request tb s ip now = (.allowed, s)) ∧
    ((s.data (bucketKey ip)).tokens = .malformed ∨
        (s.data (bucketKey ip)).last = .malformed →
      allow_request tb s ip now = (.allowed, s)) ∧
    ((allow_request tb s ip now).2 ≠ s →
      (allow_request tb s ip now).1 = .allowed ∧
      ∃ q, ((allow_request tb s ip now).2).data (bucketKey ip) =
        ⟨.num q, .num now, some (now + 60)⟩) := by
  refine ⟨?_, ?_, ?_, ?_⟩
  · intro r hr
    rcases allow_request_cases tb s ip now with h | ⟨t, _, _, _, h⟩ |
        ⟨t, _, _, h⟩
    · simp [h] at hr
    · rw [h]
    · simp [h] at hr
  · intro h
    simp [allow_request, h]
  · intro h
    unfold allow_request
    split
    · rfl
    · rw [allowRefilled_malformed tb s ip now h]
  · intro hne
    rcases allow_request_cases tb s ip now with h | ⟨t, _, _, _, h⟩ |
        ⟨t, _, _, h⟩
    · rw [h] at hne
      exact absurd rfl hne
    · rw [h] at hne
      exact absurd rfl hne
    · refine ⟨by rw [h], t - 1, ?_⟩
      rw [h]
      simp [writeRecord]

/-- C5 witness: a denied call (empty bucket, same timestamp) leaves the
    concrete store exactly as it was. -/
theorem C5_witness :
    (allow_request ⟨1, 1⟩ (storeWith ⟨.num 0, .num 0, none⟩ "w5") "w5" 0).2 =
      storeWith ⟨.num 0, .num 0, none⟩ "w5" :=
  (C5_theorem ⟨1, 1⟩ (storeWith ⟨.num 0, .num 0, none⟩ "w5") "w5" 0).1 2 (by
    norm_num [allow_request, allowRefilled, parseOr, refillAt, bucketKey,
      storeWith, freshRecord, min_def, pyInt])

/-- C6 as amended: the refill computation always saturates at capacity;
    it is nonnegative whenever the stored record was left by normal
    operation (nonnegative stored tokens, a last-refill timestamp not in
    the future, nonnegative configuration); and any record persisted by
    allow_request carries a token count within [0, capacity]. -/
theorem C6_theorem (tb : TokenBucket) (s : Store) (ip : String)
    (now tokens last : ℚ) :
    refillAt tb tokens last now ≤ tb.capacity ∧
    (0 ≤ tokens → last ≤ now → 0 ≤ tb.refill_rate → 0 ≤ tb.capacity →
      0 ≤ refillAt tb tokens last now) ∧
    ((allow_request tb s ip now).2 ≠ s →
      ∃ q, ((allow_request tb s ip now).2).data (bucketKey ip) =
          ⟨.num q, .num now, some (now + 60)⟩ ∧
        0 ≤ q ∧ q ≤ tb.capacity) := by
  refine ⟨?_, ?_, ?_⟩
  · simp only [refillAt]
    exact min_le_left _ _
  · intro h0 h1 h2 h3
    simp only [refillAt]
    exact le_min h3 (add_nonneg h0 (mul_nonneg (sub_nonneg.mpr h1) h2))
  · intro hne
    rcases allow_request_cases tb s ip now with h | ⟨t, _, _, _, h⟩ |
        ⟨t, hok, ht, h⟩
    · rw [h] at hne
      exact absurd rfl hne
    · rw [h] at hne
      exact absurd rfl hne
    · have hcap := allowRefilled_le_capacity tb s ip now t hok
      refine ⟨t - 1, ?_, by linarith, by linarith⟩
      rw [h]
      simp [writeRecord]

/-- C6 counterexample: the claim as stated is false: with a stored
    last-refill timestamp (7) later than the clock (0), get_stats
    observes a token count of -4, which violates 0 ≤ tokens. -/
theorem C6_counterexample :
    ((get_stats ⟨10, 1⟩ (storeWith ⟨.num 3, .num 7, none⟩ "c6") "c6"
          0).1.toOption.map Stats.tokens_available) = some (-4) ∧
    ¬ (0 ≤ (-4 : ℚ)) := by
  constructor
  · norm_num [get_stats, parseStrict, parseOr, refillAt, bucketKey, storeWith,
      freshRecord, min_def, round2, round_eq, Except.toOption]
  · norm_num

/-- C6 witness: on a concrete normal-operation input every bound of the
    amended statement holds, and the record persisted by a fresh allow
    call carries a token count within [0, 10]. -/
theorem C6_witness :
    refillAt ⟨10, 1⟩ 5 0 0 ≤ 10 ∧ 0 ≤ refillAt ⟨10, 1⟩ 5 0 0 ∧
    ∃ q, ((allow_request ⟨10, 1⟩ freshStore "w6" 0).2).data (bucketKey "w6") =
        ⟨.num q, .num 0, some (0 + 60)⟩ ∧ 0 ≤ q ∧ q ≤ 10 := by
  have h := C6_theorem ⟨10, 1⟩ freshStore "w6" 0 5 0
  have he : allow_request ⟨10, 1⟩ freshStore "w6" 0 =
      (.allowed, writeRecord freshStore (bucketKey "w6") ((10 : ℚ) - 1) 0) :=
    allow_fresh ⟨10, 1⟩ "w6" 0 (by norm_num)
  have hne : (allow_request ⟨10, 1⟩ freshStore "w6" 0).2 ≠ freshStore := by
    rw [he]
    intro hcontr
    have h2 := congrArg (fun st => (st.data (bucketKey "w6")).tokens) hcontr
    simp [writeRecord, freshStore, freshRecord] at h2
  exact ⟨h.1, h.2.1 (by norm_num) le_rfl (by norm_num) (by norm_num),
    h.2.2 hne⟩

/-- C2 as amended: whenever allow_request denies (with a positive
    refill rate), the Denied decision carries
    retry_after = floor((1 - t) / refill_rate) + 1 for the refilled
    token count t; this equals ceil((1 - t) / refill_rate) when the
    quotient is not an integer and exceeds the ceiling by one when it
    is, and it is always at least 1. -/
theorem C2_theorem (tb : TokenBucket) (s : Store) (ip : String) (now : ℚ)
    (r : ℤ) (hrate : 0 < tb.refill_rate)
    (hd : (allow_request tb s ip now).1 = .denied r) :
    ∃ t, allowRefilled tb s ip now = .ok t ∧ t < 1 ∧
      r = ⌊(1 - t) / tb.refill_rate⌋ + 1 ∧ 1 ≤ r := by
  rcases allow_request_cases tb s ip now with h | ⟨t, hok, hlt, _, h⟩ |
      ⟨t, _, _, h⟩
  · simp [h] at hd
  · rw [h] at hd
    simp only [Decision.denied.injEq] at hd
    have hq : 0 < (1 - t) / tb.refill_rate := div_pos (by linarith) hrate
    have hpy : pyInt ((1 - t) / tb.refill_rate) =
        ⌊(1 - t) / tb.refill_rate⌋ := by
      unfold pyInt
      rw [if_pos hq.le]
    have hfl : 0 ≤ ⌊(1 - t) / tb.refill_rate⌋ := Int.floor_nonneg.mpr hq.le
    refine ⟨t, hok, hlt, ?_, ?_⟩
    · rw [← hd, hpy]
    · rw [← hd, hpy]
      omega
  · simp [h] at hd

/-- C2 counterexample: the claim as stated is false: with capacity 1,
    refill rate 1 and an empty bucket read back at the same timestamp,
    the code returns retry_after = int(1/1) + 1 = 2, while the claimed
    formula ceil((1 - 0)/1) gives 1. -/
theorem C2_counterexample :
    (allow_request ⟨1, 1⟩ (storeWith ⟨.num 0, .num 0, none⟩ "c2") "c2"
        0).1 = .denied 2 ∧
    (⌈((1 : ℚ) - 0) / 1⌉ : ℤ) = 1 ∧ (2 : ℤ) ≠ 1 := by
  refine ⟨?_, by norm_num, by norm_num⟩
  norm_num [allow_request, allowRefilled, parseOr, refillAt, bucketKey,
    storeWith, freshRecord, min_def, pyInt]

/-- C2 witness: the denied call of the counterexample instantiates the
    amended formula: retry_after 2 = floor((1 - 0)/1) + 1 ≥ 1. -/
theorem C2_witness :
    ∃ t, allowRefilled ⟨1, 1⟩ (storeWith ⟨.num 0, .num 0, none⟩ "w2") "w2"
        0 = .ok t ∧ t < 1 ∧ (2 : ℤ) = ⌊(1 - t) / (1 : ℚ)⌋ + 1 ∧
      (1 : ℤ) ≤ 2 :=
  C2_theorem ⟨1, 1⟩ (storeWith ⟨.num 0, .num 0, none⟩ "w2") "w2" 0 2
    (by norm_num)
    (by norm_num [allow_request, allowRefilled, parseOr, refillAt, bucketKey,
      storeWith, freshRecord, min_def, pyInt])

/-- C3 as amended: the elapsed time now - last_refill_at is used
    unclamped by the shared refill computation of allow_request and
    get_stats, so a stored last_refill_at later than the current clock
    (with a positive refill rate) drives the computed token count
    strictly below the stored value. -/
theorem C3_theorem (tb : TokenBucket) (s : Store) (ip : String)
    (now q l : ℚ) (hrate : 0 < tb.refill_rate)
    (ht : (s.data (bucketKey ip)).tokens = .num q)
    (hl : (s.data (bucketKey ip)).last = .num l)
    (hskew : now < l) :
    allowRefilled tb s ip now = .ok (refillAt tb q l now) ∧
    refillAt tb q l now < q := by
  constructor
  · unfold allowRefilled
    rw [ht, hl]
    rfl
  · have hneg : (now - l) * tb.refill_rate < 0 :=
      mul_neg_of_neg_of_pos (by linarith) hrate
    have hle : refillAt tb q l now ≤ q + (now - l) * tb.refill_rate := by
      simp only [refillAt]
      exact min_le_right _ _
    linarith

/-- C3 counterexample: the claim as stated is false: with a stored
    record of 5 tokens and last_refill_at 10 read at clock 0, the
    refill computes min(10, 5 + (0 - 10) * 1) = -5, below the stored 5,
    and get_stats reports exactly that value. -/
theorem C3_counterexample :
    allowRefilled ⟨10, 1⟩ (storeWith ⟨.num 5, .num 10, none⟩ "c3") "c3" 0 =
      .ok (-5) ∧
    ((get_stats ⟨10, 1⟩ (storeWith ⟨.num 5, .num 10, none⟩ "c3") "c3"
          0).1.toOption.map Stats.tokens_available) = some (-5) ∧
    (-5 : ℚ) < 5 := by
  refine ⟨?_, ?_, by norm_num⟩
  · norm_num [allowRefilled, parseOr, refillAt, bucketKey, storeWith,
      freshRecord, min_def]
  · norm_num [get_stats, parseStrict, parseOr, refillAt, bucketKey, storeWith,
      freshRecord, min_def, round2, round_eq, Except.toOption]

/-- allow_request on an identity with no stored record and capacity
    below one token: the full-but-tiny bucket cannot cover a request,
    so the call denies (the refill rate being nonzero, the retry
    division succeeds). -/
lemma allow_fresh_deny (tb : TokenBucket) (ip : String) (t : ℚ)
    (hcap : tb.capacity < 1) (hrate : tb.refill_rate ≠ 0) :
    allow_request tb freshStore ip t =
      (.denied (pyInt ((1 - tb.capacity) / tb.refill_rate) + 1),
       freshStore) := by
  simp [allow_request, allowRefilled, freshStore, freshRecord, parseOr,
        refillAt, hcap, hrate]

/-- After k consecutive immediate allow_request calls (1 ≤ k ≤ C) on a
    fresh identity with capacity C, the store is reachable and holds
    the record with C - k tokens, the call timestamp, and the refreshed
    expiry. -/
lemma allowN_state (C : ℕ) (rate : ℚ) (ip : String) (t : ℚ) :
    ∀ k, 1 ≤ k → k ≤ C →
      (allowN ⟨(C : ℚ), rate⟩ ip t k freshStore).reachable = true ∧
      (allowN ⟨(C : ℚ), rate⟩ ip t k freshStore).data (bucketKey ip) =
        ⟨.num ((C : ℚ) - (k : ℚ)), .num t, some (t + 60)⟩ := by
  intro k
  induction k with
  | zero => exact fun h _ => absurd h (by omega)
  | succ k ih =>
    intro _ hkC
    by_cases hk0 : k = 0
    · subst hk0
      have hC : (1 : ℚ) ≤ (C : ℚ) := by exact_mod_cast hkC
      simp only [allowN]
      rw [allow_fresh ⟨(C : ℚ), rate⟩ ip t hC]
      refine ⟨rfl, ?_⟩
      simp [writeRecord]
    · have hk1 : 1 ≤ k := Nat.one_le_iff_ne_zero.mpr hk0
      have hkC' : k ≤ C := le_trans (Nat.le_succ k) hkC
      obtain ⟨hre, hdata⟩ := ih hk1 hkC'
      have hq_le : (C : ℚ) - (k : ℚ) ≤ (C : ℚ) := by
        have hk_nonneg : (0 : ℚ) ≤ (k : ℚ) := Nat.cast_nonneg k
        linarith
      have h1le : (1 : ℚ) ≤ (C : ℚ) - (k : ℚ) := by
        have hcast : (k : ℚ) + 1 ≤ (C : ℚ) := by exact_mod_cast hkC
        linarith
      have hstep := allow_stored ⟨(C : ℚ), rate⟩ _ ip t ((C : ℚ) - (k : ℚ))
        (some (t + 60)) hre hdata hq_le
      rw [if_neg (not_lt.mpr h1le)] at hstep
      simp only [allowN]
      rw [hstep]
      refine ⟨hre, ?_⟩
      have hcast : (C : ℚ) - (k : ℚ) - 1 = (C : ℚ) - ((k + 1 : ℕ) : ℚ) := by
        push_cast
        ring
      simp [writeRecord, hcast]

/-- C1 as amended: for every capacity C and nonzero refill rate, a
    freshly-seen identity making consecutive immediate calls to
    allow_request gets Allowed on each of the first C calls and Denied
    on the (C+1)th.  (With refill_rate = 0 the retry-after division
    raises ZeroDivisionError and the (C+1)th call fails open instead.) -/
theorem C1_theorem (C : ℕ) (rate : ℚ) (ip : String) (t : ℚ)
    (hrate : rate ≠ 0) :
    (∀ k, k < C →
      (allow_request ⟨(C : ℚ), rate⟩ (allowN ⟨(C : ℚ), rate⟩ ip t k freshStore)
          ip t).1 = .allowed) ∧
    ∃ r, (allow_request ⟨(C : ℚ), rate⟩
        (allowN ⟨(C : ℚ), rate⟩ ip t C freshStore) ip t).1 = .denied r := by
  constructor
  · intro k hk
    by_cases hk0 : k = 0
    · subst hk0
      have hC : (1 : ℚ) ≤ (C : ℚ) := by exact_mod_cast hk
      simp only [allowN]
      rw [allow_fresh ⟨(C : ℚ), rate⟩ ip t hC]
    · obtain ⟨hre, hdata⟩ := allowN_state C rate ip t k
        (Nat.one_le_iff_ne_zero.mpr hk0) (le_of_lt hk)
      have hq_le : (C : ℚ) - (k : ℚ) ≤ (C : ℚ) := by
        have hk_nonneg : (0 : ℚ) ≤ (k : ℚ) := Nat.cast_nonneg k
        linarith
      have h1le : (1 : ℚ) ≤ (C : ℚ) - (k : ℚ) := by
        have hcast : (k : ℚ) + 1 ≤ (C : ℚ) := by exact_mod_cast hk
        linarith
      have hstep := allow_stored ⟨(C : ℚ), rate⟩ _ ip t ((C : ℚ) - (k : ℚ))
        (some (t + 60)) hre hdata hq_le
      rw [if_neg (not_lt.mpr h1le)] at hstep
      rw [hstep]
  · by_cases hc0 : C = 0
    · subst hc0
      refine ⟨pyInt ((1 - ((0 : ℕ) : ℚ)) / rate) + 1, ?_⟩
      simp only [allowN]
      rw [allow_fresh_deny ⟨((0 : ℕ) : ℚ), rate⟩ ip t (by norm_num) hrate]
    · obtain ⟨hre, hdata⟩ := allowN_state C rate ip t C
        (Nat.one_le_iff_ne_zero.mpr hc0) le_rfl
      have hstep := allow_stored ⟨(C : ℚ), rate⟩ _ ip t ((C : ℚ) - (C : ℚ))
        (some (t + 60)) hre hdata (by norm_num)
      rw [if_pos (by norm_num : ((C : ℚ) - (C : ℚ)) < 1), if_neg hrate]
        at hstep
      exact ⟨_, by rw [hstep]⟩

/-- C1 counterexample: the claim as stated (any refill rate) is false:
    with capacity 1 and refill_rate 0, the first call is Allowed but
    the second call — which the claim requires to be Denied — is also
    Allowed, because the retry-after division by refill_rate raises
    ZeroDivisionError and the catch-all fails open. -/
theorem C1_counterexample :
    (allow_request ⟨1, 0⟩ (allowN ⟨1, 0⟩ "c1" 0 0 freshStore) "c1" 0).1 =
      .allowed ∧
    (allow_request ⟨1, 0⟩ (allowN ⟨1, 0⟩ "c1" 0 1 freshStore) "c1" 0).1 =
      .allowed := by
  constructor
  · norm_num [allowN, allow_request, allowRefilled, parseOr, refillAt,
      bucketKey, freshStore, freshRecord, min_def]
  · norm_num [allowN, allow_request, allowRefilled, parseOr, refillAt,
      bucketKey, freshStore, freshRecord, writeRecord, min_def]

/-- C1 witness: the amended statement at capacity 1, refill rate 1. -/
theorem C1_witness :
    (∀ k, k < 1 →
      (allow_request ⟨((1 : ℕ) : ℚ), 1⟩
          (allowN ⟨((1 : ℕ) : ℚ), 1⟩ "w1" 0 k freshStore) "w1" 0).1 =
        .allowed) ∧
    ∃ r, (allow_request ⟨((1 : ℕ) : ℚ), 1⟩
        (allowN ⟨((1 : ℕ) : ℚ), 1⟩ "w1" 0 1 freshStore) "w1" 0).1 =
      .denied r :=
  C1_theorem 1 1 "w1" 0 (by norm_num)

/-- C8: consuming one token of a fresh bucket at t = 0 and reading
    stats at t = C / refill_rate reports a fully refilled bucket of
    exactly C tokens, never exceeding capacity.  (The scenario
    presupposes C ≥ 1, so the first call consumes a token, and a
    nonzero refill rate, so the observation time exists.) -/
theorem C8_theorem (C : ℕ) (rate : ℚ) (ip : String) (hC : 1 ≤ C)
    (hrate : rate ≠ 0) :
    (allow_request ⟨(C : ℚ), rate⟩ freshStore ip 0).1 = .allowed ∧
    ((get_stats ⟨(C : ℚ), rate⟩ (allow_request ⟨(C : ℚ), rate⟩ freshStore ip
            0).2 ip ((C : ℚ) / rate)).1.toOption.map
        Stats.tokens_available) = some ((C : ℚ)) := by
  have hc1 : (1 : ℚ) ≤ (C : ℚ) := by exact_mod_cast hC
  have hfresh := allow_fresh ⟨(C : ℚ), rate⟩ ip 0 hc1
  constructor
  · rw [hfresh]
  · rw [hfresh]
    have hmul : (C : ℚ) / rate * rate = (C : ℚ) := div_mul_cancel₀ _ hrate
    have hround : round2 ((C : ℚ)) = (C : ℚ) := round2_natCast C
    simp [get_stats, writeRecord, freshStore, parseStrict, parseOr, refillAt,
      Except.toOption, hmul]
    rw [show (C : ℚ) ⊓ ((C : ℚ) - 1 + (C : ℚ)) = (C : ℚ) from
        min_eq_left (by linarith), hround]

/-- C8 witness: capacity 10, rate 1: one allow call at t = 0, stats at
    t = 10 reports exactly 10 tokens. -/
theorem C8_witness :
    (allow_request ⟨((10 : ℕ) : ℚ), 1⟩ freshStore "w8" 0).1 = .allowed ∧
    ((get_stats ⟨((10 : ℕ) : ℚ), 1⟩ (allow_request ⟨((10 : ℕ) : ℚ), 1⟩
            freshStore "w8" 0).2 "w8" (((10 : ℕ) : ℚ) / 1)).1.toOption.map
        Stats.tokens_available) = some (((10 : ℕ) : ℚ)) :=
  C8_theorem 10 1 "w8" (by norm_num) (by norm_num)

/-- C3 witness: the amended statement at the concrete skewed store. -/
theorem C3_witness :
    allowRefilled ⟨10, 1⟩ (storeWith ⟨.num 5, .num 10, none⟩ "w3") "w3" 0 =
      .ok (refillAt ⟨10, 1⟩ 5 10 0) ∧
    refillAt ⟨10, 1⟩ 5 10 0 < 5 :=
  C3_theorem ⟨10, 1⟩ (storeWith ⟨.num 5, .num 10, none⟩ "w3") "w3" 0 5 10
    (by norm_num) (by simp [storeWith, bucketKey]) (by simp [storeWith, bucketKey])
    (by norm_num)

end RateLimiter
